import Mathlib

/-!
Verification of the `synth_greenpak4` staged synthesis pipeline
(techlibs/greenpak4/synth_greenpak4.cc).

The pass is a linear sequence of eight labelled stages.  A mutable boolean
`active` is threaded through the stage boundaries by `check_label`; a stage
body is dispatched (a list of `Pass::call` command strings) exactly when the
boundary check returns true.  We embed the pass as a fold of a step function
over the fixed stage table, recording the dispatched commands (tagged by
stage label) and the boundary consultations.
-/

namespace GreenPAK4

/-- The configuration assembled by argument parsing in
`SynthGreenPAK4Pass::execute` (defaults as in the source), together with the
`full_selection` state of the design that the pass queries before running. -/
structure Config where
  top_opt : String := "-auto-top"
  part : String := "SLG46621V"
  run_from : String := ""
  run_to : String := ""
  json_file : String := ""
  flatten : Bool := true
  retime : Bool := false
  full_selection : Bool
deriving Repr, DecidableEq

/-- `check_label` from the source: entering the window when the label equals
`run_from`, then (on the already-updated value) leaving it when the label
equals `run_to`; the updated value is both stored and returned. -/
def check_label (active : Bool) (run_from run_to label : String) : Bool :=
  let a1 := if label = run_from then true else active
  let a2 := if label = run_to then false else a1
  a2

/-- Body of the `begin` stage. -/
def beginOps (top_opt : String) : List String :=
  ["read_verilog -lib +/greenpak4/cells_sim.v",
   "hierarchy -check " ++ top_opt]

/-- Body of the `flatten` stage. -/
def flattenOps : List String :=
  ["proc", "flatten", "tribuf -logic"]

/-- Body of the `coarse` stage. -/
def coarseOps : List String :=
  ["synth -run coarse"]

/-- Body of the `fine` stage; the trailing `abc -dff` is issued only when
`-retime` was given. -/
def fineOps (retime : Bool) : List String :=
  ["greenpak4_counters",
   "clean",
   "opt -fast -mux_undef -undriven -fine",
   "memory_map",
   "opt -undriven -fine",
   "techmap",
   "dfflibmap -prepare -liberty +/greenpak4/gp_dff.lib",
   "opt -fast"] ++ (if retime then ["abc -dff"] else [])

/-- Body of the `map_luts` stage: one `nlutmap` call selected by the part
name (three independent conditionals in the source), then `clean`. -/
def map_lutsOps (part : String) : List String :=
  (if part = "SLG46140V" then ["nlutmap -luts 0,6,8,2"] else []) ++
  (if part = "SLG46620V" then ["nlutmap -luts 2,8,16,2"] else []) ++
  (if part = "SLG46621V" then ["nlutmap -luts 2,8,16,2"] else []) ++
  ["clean"]

/-- Body of the `map_cells` stage. -/
def map_cellsOps : List String :=
  ["dfflibmap -liberty +/greenpak4/gp_dff.lib",
   "techmap -map +/greenpak4/cells_map.v",
   "dffinit -ff GP_DFF Q INIT",
   "dffinit -ff GP_DFFR Q INIT",
   "dffinit -ff GP_DFFS Q INIT",
   "dffinit -ff GP_DFFSR Q INIT",
   "clean"]

/-- Body of the `check` stage. -/
def checkOps : List String :=
  ["hierarchy -check", "stat", "check -noinit"]

/-- Body of the `json` stage; `write_json` is issued only when an output
file was requested. -/
def jsonOps (json_file : String) : List String :=
  ["splitnets"] ++
  (if json_file = "" then [] else ["write_json " ++ json_file])

/-- One row of the stage table: the stage label, the gate evaluated before
the boundary check (`flatten &&` for the flatten stage, constant true for
the others), and the stage body. -/
structure StageRow where
  label : String
  gate : Bool
  body : List String

/-- State threaded through the stage sequence: the `active` window flag,
the list of boundary consultations (label, returned value), and the
dispatched stage bodies tagged with their stage label. -/
structure RunState where
  active : Bool
  consulted : List (String × Bool)
  trace : List (String × List String)
deriving Repr, DecidableEq

/-- One stage of the sequence: if the gate holds, consult `check_label` at
the stage boundary and, when it reports active, dispatch the body. -/
def stepRow (cfg : Config) (s : RunState) (r : StageRow) : RunState :=
  if r.gate then
    let a := check_label s.active cfg.run_from cfg.run_to r.label
    { active := a,
      consulted := s.consulted ++ [(r.label, a)],
      trace := s.trace ++ (if a then [(r.label, r.body)] else []) }
  else s

/-- The fixed stage table of `SynthGreenPAK4Pass::execute`, in source
order. -/
def stageTable (cfg : Config) : List StageRow :=
  [⟨"begin", true, beginOps cfg.top_opt⟩,
   ⟨"flatten", cfg.flatten, flattenOps⟩,
   ⟨"coarse", true, coarseOps⟩,
   ⟨"fine", true, fineOps cfg.retime⟩,
   ⟨"map_luts", true, map_lutsOps cfg.part⟩,
   ⟨"map_cells", true, map_cellsOps⟩,
   ⟨"check", true, checkOps⟩,
   ⟨"json", true, jsonOps cfg.json_file⟩]

/-- The stage sequence run on a validated configuration: `active` starts as
`run_from.empty()`, then the table is traversed in order. -/
def pipeline (cfg : Config) : RunState :=
  List.foldl (stepRow cfg) ⟨decide (cfg.run_from = ""), [], []⟩ (stageTable cfg)

/-- The dispatched stage bodies, tagged with their stage label. -/
def traceOf (cfg : Config) : List (String × List String) :=
  (pipeline cfg).trace

/-- The labels of the stages whose bodies were dispatched, in order. -/
def stageSeq (cfg : Config) : List String :=
  (traceOf cfg).map Prod.fst

/-- The labels passed to `check_label`, in order. -/
def consultedLabels (cfg : Config) : List String :=
  (pipeline cfg).consulted.map Prod.fst

/-- All dispatched command strings, in dispatch order. -/
def allOps (cfg : Config) : List String :=
  ((traceOf cfg).map Prod.snd).flatten

/-- Validation errors raised by `log_cmd_error` before the pipeline runs. -/
inductive CmdError where
  | notFullySelected
  | invalidPart (part : String)
deriving Repr, DecidableEq

/-- `SynthGreenPAK4Pass::execute` after argument parsing: reject a design
that is not fully selected, then an invalid part name, then run the stage
sequence. -/
def execute (cfg : Config) : Except CmdError (List (String × List String)) :=
  if ¬ cfg.full_selection then
    Except.error CmdError.notFullySelected
  else if cfg.part ≠ "SLG46140V" ∧ cfg.part ≠ "SLG46620V" ∧ cfg.part ≠ "SLG46621V" then
    Except.error (CmdError.invalidPart cfg.part)
  else
    Except.ok (pipeline cfg).trace

/-- The eight stage labels in source order. -/
def stageLabels : List String :=
  ["begin", "flatten", "coarse", "fine", "map_luts", "map_cells", "check", "json"]

/-- The three valid part names. -/
def validParts : List String :=
  ["SLG46140V", "SLG46620V", "SLG46621V"]

/-- The gated rows of the stage table (the flatten row is present iff the
flatten flag is on). -/
def gatedRows (cfg : Config) : List StageRow :=
  (stageTable cfg).filter (fun r => r.gate)

/-- All-defaults configuration with a JSON output file (the scenario of the
first end-to-end test). -/
def cfgAllStages : Config :=
  { json_file := "/tmp/out.json", full_selection := true }

/-- Configuration with `-run fine:fine`. -/
def cfgFineFine : Config :=
  { run_from := "fine", run_to := "fine", full_selection := true }

/-- Default configuration with `-noflatten`. -/
def cfgNoFlattenDefault : Config :=
  { flatten := false, full_selection := true }

/-- Configuration `-part SLG46140V -run map_luts:check`. -/
def cfgMapLutsCheck : Config :=
  { part := "SLG46140V", run_from := "map_luts", run_to := "check", full_selection := true }

/-- All-defaults configuration (empty run range). -/
def cfgEmptyRun : Config :=
  { full_selection := true }

/-- Configuration with an invalid part name. -/
def cfgBadPart : Config :=
  { part := "SLG9999", full_selection := true }

/-- Configuration with `-noflatten -run begin:` (window covers every
stage). -/
def cfgNoFlattenFullRun : Config :=
  { flatten := false, run_from := "begin", full_selection := true }

/-- Default configuration with `-retime`. -/
def cfgRetime : Config :=
  { retime := true, full_selection := true }

/-- Configuration whose from-label matches no stage. -/
def cfgUnmatchedFrom : Config :=
  { run_from := "zzz", full_selection := true }

/-- Configuration with `-noflatten -run flatten:`. -/
def cfgNoFlattenFromFlatten : Config :=
  { flatten := false, run_from := "flatten", full_selection := true }

theorem check_label_of_ne (a : Bool) (f t l : String) (h1 : l ≠ f) (h2 : l ≠ t) :
    check_label a f t l = a := by
  simp [check_label, h1, h2]

theorem check_label_stays_false (f t l : String) (h : l = f → l = t) :
    check_label false f t l = false := by
  by_cases hf : l = f
  · have ht : l = t := h hf
    simp [check_label, ht]
  · simp [check_label, hf]

theorem check_label_stays_true (f t l : String) (h : l ≠ t) :
    check_label true f t l = true := by
  simp [check_label, h]

theorem foldl_inactive (cfg : Config) (rows : List StageRow) (s : RunState)
    (hs : s.active = false)
    (h : ∀ r ∈ rows, r.gate = true → r.label = cfg.run_from → r.label = cfg.run_to) :
    (List.foldl (stepRow cfg) s rows).active = false ∧
      (List.foldl (stepRow cfg) s rows).trace = s.trace := by
  induction rows generalizing s with
  | nil => exact ⟨hs, rfl⟩
  | cons r rs ih =>
    rw [List.foldl_cons]
    cases hg : r.gate with
    | false =>
      have hst : stepRow cfg s r = s := by simp [stepRow, hg]
      rw [hst]
      exact ih s hs (fun r' hr' => h r' (List.mem_cons_of_mem _ hr'))
    | true =>
      have ha : check_label s.active cfg.run_from cfg.run_to r.label = false := by
        rw [hs]
        exact check_label_stays_false _ _ _ (h r (List.mem_cons_self _ _) hg)
      have hst : stepRow cfg s r =
          ⟨false, s.consulted ++ [(r.label, false)], s.trace⟩ := by
        simp [stepRow, hg, ha]
      rw [hst]
      exact ih _ rfl (fun r' hr' => h r' (List.mem_cons_of_mem _ hr'))

theorem foldl_active (cfg : Config) (rows : List StageRow) (s : RunState)
    (hs : s.active = true)
    (h : ∀ r ∈ rows, r.gate = true → r.label ≠ cfg.run_to) :
    (List.foldl (stepRow cfg) s rows).active = true ∧
      (List.foldl (stepRow cfg) s rows).trace =
        s.trace ++ (rows.filter (fun r => r.gate)).map (fun r => (r.label, r.body)) := by
  induction rows generalizing s with
  | nil => exact ⟨hs, by simp⟩
  | cons r rs ih =>
    rw [List.foldl_cons]
    cases hg : r.gate with
    | false =>
      have hst : stepRow cfg s r = s := by simp [stepRow, hg]
      rw [hst]
      have hrec := ih s hs (fun r' hr' => h r' (List.mem_cons_of_mem _ hr'))
      simpa [List.filter_cons, hg] using hrec
    | true =>
      have ha : check_label s.active cfg.run_from cfg.run_to r.label = true := by
        rw [hs]
        exact check_label_stays_true _ _ _ (h r (List.mem_cons_self _ _) hg)
      have hst : stepRow cfg s r =
          ⟨true, s.consulted ++ [(r.label, true)], s.trace ++ [(r.label, r.body)]⟩ := by
        simp [stepRow, hg, ha]
      rw [hst]
      have hrec := ih ⟨true, s.consulted ++ [(r.label, true)], s.trace ++ [(r.label, r.body)]⟩
        rfl (fun r' hr' => h r' (List.mem_cons_of_mem _ hr'))
      simpa [List.filter_cons, hg, List.append_assoc] using hrec

theorem foldl_consulted (cfg : Config) (rows : List StageRow) (s : RunState) :
    (List.foldl (stepRow cfg) s rows).consulted.map Prod.fst =
      s.consulted.map Prod.fst ++ (rows.filter (fun r => r.gate)).map StageRow.label := by
  induction rows generalizing s with
  | nil => simp
  | cons r rs ih =>
    rw [List.foldl_cons, ih]
    cases hg : r.gate with
    | false => simp [stepRow, hg, List.filter_cons]
    | true => simp [stepRow, hg, List.filter_cons]

theorem foldl_trace_consulted (cfg : Config) (rows : List StageRow) (s : RunState)
    (h : s.trace.map Prod.fst = (s.consulted.filter (fun p => p.2)).map Prod.fst) :
    (List.foldl (stepRow cfg) s rows).trace.map Prod.fst =
      ((List.foldl (stepRow cfg) s rows).consulted.filter (fun p => p.2)).map Prod.fst := by
  induction rows generalizing s with
  | nil => exact h
  | cons r rs ih =>
    rw [List.foldl_cons]
    apply ih
    cases hg : r.gate with
    | false => simpa [stepRow, hg] using h
    | true =>
      cases ha : check_label s.active cfg.run_from cfg.run_to r.label with
      | false => simp [stepRow, hg, ha, List.filter_append, h]
      | true => simp [stepRow, hg, ha, List.filter_append, h]

theorem foldl_trace_sublist (cfg : Config) (rows : List StageRow) (s : RunState) :
    ((List.foldl (stepRow cfg) s rows).trace).Sublist
      (s.trace ++ (rows.filter (fun r => r.gate)).map (fun r => (r.label, r.body))) := by
  induction rows generalizing s with
  | nil => simp
  | cons r rs ih =>
    rw [List.foldl_cons]
    cases hg : r.gate with
    | false =>
      have hst : stepRow cfg s r = s := by simp [stepRow, hg]
      rw [hst]
      simpa [List.filter_cons, hg] using ih s
    | true =>
      cases ha : check_label s.active cfg.run_from cfg.run_to r.label with
      | true =>
        have hst : (stepRow cfg s r).trace = s.trace ++ [(r.label, r.body)] := by
          simp [stepRow, hg, ha]
        have hrec := ih (stepRow cfg s r)
        rw [hst] at hrec
        simpa [List.filter_cons, hg, List.append_assoc] using hrec
      | false =>
        have hst : (stepRow cfg s r).trace = s.trace := by
          simp [stepRow, hg, ha]
        have hrec := ih (stepRow cfg s r)
        rw [hst] at hrec
        refine hrec.trans ?_
        simp only [List.filter_cons, hg, List.map_cons]
        exact List.Sublist.append_left (List.sublist_cons_self _ _) _

theorem trace_sublist_gated (cfg : Config) :
    (traceOf cfg).Sublist ((gatedRows cfg).map (fun r => (r.label, r.body))) := by
  have h := foldl_trace_sublist cfg (stageTable cfg)
    ⟨decide (cfg.run_from = ""), [], []⟩
  simpa [traceOf, pipeline, gatedRows] using h

theorem mem_traceOf_cases (cfg : Config) (p : String × List String)
    (hp : p ∈ traceOf cfg) :
    p = ("begin", beginOps cfg.top_opt) ∨
    (cfg.flatten = true ∧ p = ("flatten", flattenOps)) ∨
    p = ("coarse", coarseOps) ∨
    p = ("fine", fineOps cfg.retime) ∨
    p = ("map_luts", map_lutsOps cfg.part) ∨
    p = ("map_cells", map_cellsOps) ∨
    p = ("check", checkOps) ∨
    p = ("json", jsonOps cfg.json_file) := by
  have hm := (trace_sublist_gated cfg).subset hp
  cases hf : cfg.flatten <;>
    simp [gatedRows, stageTable, hf, List.filter_cons] at hm <;>
    tauto

theorem append_ne_of_length_lt (s t u : String) (h : u.length < s.length) :
    s ++ t ≠ u := by
  intro he
  have hl := congrArg String.length he
  rw [String.length_append] at hl
  omega

theorem mem_allOps_cases (cfg : Config) (op : String) (hop : op ∈ allOps cfg) :
    ∃ p ∈ traceOf cfg, op ∈ p.2 := by
  rcases List.mem_flatten.mp hop with ⟨ops, hops, hmem⟩
  rcases List.mem_map.mp hops with ⟨p, hp, rfl⟩
  exact ⟨p, hp, hmem⟩

theorem stageTable_label_mem (cfg : Config) (r : StageRow) (hr : r ∈ stageTable cfg) :
    r.label ∈ stageLabels := by
  simp only [stageTable, List.mem_cons, List.not_mem_nil, or_false] at hr
  rcases hr with rfl | rfl | rfl | rfl | rfl | rfl | rfl | rfl <;> simp [stageLabels]

theorem short_notin_beginOps (t op : String)
    (h1 : op ≠ "read_verilog -lib +/greenpak4/cells_sim.v")
    (h2 : op.length < "hierarchy -check ".length) :
    op ∉ beginOps t := by
  intro h
  simp only [beginOps, List.mem_cons, List.not_mem_nil, or_false] at h
  rcases h with h | h
  · exact h1 h
  · exact append_ne_of_length_lt "hierarchy -check " t op h2 h.symm

theorem short_notin_jsonOps (f op : String)
    (h1 : op ≠ "splitnets")
    (h2 : op.length < "write_json ".length) :
    op ∉ jsonOps f := by
  intro h
  simp only [jsonOps, List.mem_append, List.mem_cons, List.not_mem_nil, or_false] at h
  rcases h with h | h
  · exact h1 h
  · by_cases hf : f = ""
    · simp [hf] at h
    · simp only [hf, if_false] at h
      simp only [List.mem_cons, List.not_mem_nil, or_false] at h
      exact append_ne_of_length_lt "write_json " f op h2 h.symm

theorem notin_map_lutsOps (p op : String)
    (h1 : op ≠ "clean")
    (h2 : op ≠ "nlutmap -luts 0,6,8,2")
    (h3 : op ≠ "nlutmap -luts 2,8,16,2") :
    op ∉ map_lutsOps p := by
  by_cases c1 : p = "SLG46140V" <;> by_cases c2 : p = "SLG46620V" <;>
    by_cases c3 : p = "SLG46621V" <;>
    simp [map_lutsOps, c1, c2, c3, h1, h2, h3]

theorem stageSeq_eq_all (cfg : Config) (hf : cfg.run_from = "")
    (ht : cfg.run_to ∉ stageLabels) (hfl : cfg.flatten = true) :
    stageSeq cfg = stageLabels := by
  have h := foldl_active cfg (stageTable cfg) ⟨decide (cfg.run_from = ""), [], []⟩
    (by simp [hf])
    (fun r hr hg heq => ht (heq ▸ stageTable_label_mem cfg r hr))
  have htr : (pipeline cfg).trace =
      ((stageTable cfg).filter (fun r => r.gate)).map (fun r => (r.label, r.body)) := by
    simpa [pipeline] using h.2
  rw [stageSeq, traceOf, htr, List.map_map]
  simp [stageTable, hfl, List.filter_cons, stageLabels]

/-- C1: for part SLG46621V with run range unset, flatten enabled, retime
disabled and JSON path "/tmp/out.json", the pass succeeds, all 8 stages
dispatch their bodies in the fixed order, the map_luts stage invokes
nlutmap with the budget tuple 2,8,16,2, and the final dispatched operation
is the JSON write to "/tmp/out.json". -/
theorem claim_c1_all_stages_json :
    execute cfgAllStages = Except.ok (traceOf cfgAllStages) ∧
    stageSeq cfgAllStages = stageLabels ∧
    List.lookup "map_luts" (traceOf cfgAllStages) =
      some ["nlutmap -luts 2,8,16,2", "clean"] ∧
    (allOps cfgAllStages).getLast? = some "write_json /tmp/out.json" :=
  ⟨rfl, by decide, by decide, by decide⟩

/-- C2: with run_from = run_to = "fine" no stage body executes at all:
`check_label` applied to a label equal to both bounds sets active to true
and then to false within the same call, so the coinciding stage itself is
inactive and every other stage is outside the window. -/
theorem claim_c2_fine_fine :
    (∀ (a : Bool) (l : String), check_label a l l l = false) ∧
    (∀ cfg : Config, cfg.run_from = "fine" → cfg.run_to = "fine" →
      traceOf cfg = []) := by
  constructor
  · intro a l
    simp [check_label]
  · intro cfg hf ht
    have hinit : (⟨decide (cfg.run_from = ""), [], []⟩ : RunState).active = false := by
      simp [hf]
    have h := foldl_inactive cfg (stageTable cfg) ⟨decide (cfg.run_from = ""), [], []⟩
      hinit (fun r hr hg hfrom => by rw [ht]; rw [hf] at hfrom; exact hfrom)
    simpa [traceOf, pipeline] using h.2

theorem claim_c2_fine_fine_witness :
    check_label true "fine" "fine" "fine" = false ∧ traceOf cfgFineFine = [] :=
  ⟨claim_c2_fine_fine.1 true "fine", claim_c2_fine_fine.2 cfgFineFine rfl rfl⟩

/-- C3 (counterexample): it is not the case that the tracker is consulted
at all 8 stage boundaries regardless of the stage's enabling flags — with
the flatten flag disabled (default configuration otherwise) the "flatten"
boundary is never consulted. -/
theorem claim_c3_counterexample :
    consultedLabels cfgNoFlattenDefault ≠ stageLabels := by decide

/-- C3 (amended): for every configuration the tracker is consulted once at
each stage boundary in fixed order, except the flatten boundary, which is
consulted only when the flatten flag is enabled; a stage body is dispatched
iff the consultation at its boundary reports active. -/
theorem claim_c3_boundary_consultation (cfg : Config) :
    consultedLabels cfg =
      (if cfg.flatten then stageLabels
       else ["begin", "coarse", "fine", "map_luts", "map_cells", "check", "json"]) ∧
    stageSeq cfg = ((pipeline cfg).consulted.filter (fun p => p.2)).map Prod.fst := by
  constructor
  · have h := foldl_consulted cfg (stageTable cfg) ⟨decide (cfg.run_from = ""), [], []⟩
    have hc : consultedLabels cfg =
        ((stageTable cfg).filter (fun r => r.gate)).map StageRow.label := by
      simpa [consultedLabels, pipeline] using h
    rw [hc]
    cases hf : cfg.flatten <;>
      simp [stageTable, hf, List.filter_cons, stageLabels]
  · have h := foldl_trace_consulted cfg (stageTable cfg)
      ⟨decide (cfg.run_from = ""), [], []⟩ (by simp)
    simpa [stageSeq, traceOf, pipeline] using h

/-- C4 (counterexample): for part SLG46140V with run range map_luts:check
it is not the case that only the map_luts stage body executes — the
map_cells stage body executes as well, since the window only closes at the
"check" boundary. -/
theorem claim_c4_counterexample :
    stageSeq cfgMapLutsCheck ≠ ["map_luts"] := by decide

/-- C4 (amended): for part SLG46140V with run range map_luts:check exactly
two stage bodies execute, map_luts (invoking nlutmap with the budget tuple
0,6,8,2) followed by map_cells; the check stage and every other stage
dispatch nothing. -/
theorem claim_c4_map_luts_to_check :
    stageSeq cfgMapLutsCheck = ["map_luts", "map_cells"] ∧
    List.lookup "map_luts" (traceOf cfgMapLutsCheck) =
      some ["nlutmap -luts 0,6,8,2", "clean"] ∧
    "check" ∉ stageSeq cfgMapLutsCheck :=
  ⟨by decide, by decide, by decide⟩

/-- C5: with both run labels empty (and the flatten stage enabled), every
stage body executes exactly once, in the fixed order begin, flatten,
coarse, fine, map_luts, map_cells, check, json: active starts true and the
empty label matches no stage label, so the window never closes. -/
theorem claim_c5_empty_run (cfg : Config) (hf : cfg.run_from = "")
    (ht : cfg.run_to = "") (hfl : cfg.flatten = true) :
    stageSeq cfg = stageLabels :=
  stageSeq_eq_all cfg hf (by rw [ht]; decide) hfl

theorem claim_c5_empty_run_witness : stageSeq cfgEmptyRun = stageLabels :=
  claim_c5_empty_run cfgEmptyRun rfl rfl rfl

/-- C6: for every part identifier outside the enumerated set the pass is
rejected with a configuration error before any stage runs: the result is an
error carrying no dispatched operations. -/
theorem claim_c6_invalid_part (cfg : Config) (h : cfg.part ∉ validParts) :
    ∃ e, execute cfg = Except.error e := by
  simp only [validParts, List.mem_cons, List.not_mem_nil, or_false, not_or] at h
  obtain ⟨h1, h2, h3⟩ := h
  by_cases hs : cfg.full_selection
  · exact ⟨CmdError.invalidPart cfg.part, by simp [execute, hs, h1, h2, h3]⟩
  · exact ⟨CmdError.notFullySelected, by simp [execute, hs]⟩

theorem claim_c6_invalid_part_witness : ∃ e, execute cfgBadPart = Except.error e :=
  claim_c6_invalid_part cfgBadPart (by decide)

/-- C7: whenever the flatten flag is disabled, the flatten stage body never
executes — no flatten-tagged dispatch appears in the trace and the "proc"
command is never issued — for every run range. -/
theorem claim_c7_noflatten (cfg : Config) (h : cfg.flatten = false) :
    "flatten" ∉ stageSeq cfg ∧ "proc" ∉ allOps cfg := by
  constructor
  · intro hmem
    rcases List.mem_map.mp hmem with ⟨p, hp, hfst⟩
    rcases mem_traceOf_cases cfg p hp with
      h1 | ⟨hfl, h1⟩ | h1 | h1 | h1 | h1 | h1 | h1
    · rw [h1] at hfst; simp at hfst
    · simp [h] at hfl
    · rw [h1] at hfst; simp at hfst
    · rw [h1] at hfst; simp at hfst
    · rw [h1] at hfst; simp at hfst
    · rw [h1] at hfst; simp at hfst
    · rw [h1] at hfst; simp at hfst
    · rw [h1] at hfst; simp at hfst
  · intro hop
    obtain ⟨p, hp, hmem⟩ := mem_allOps_cases cfg _ hop
    rcases mem_traceOf_cases cfg p hp with
      h1 | ⟨hfl, h1⟩ | h1 | h1 | h1 | h1 | h1 | h1
    · rw [h1] at hmem
      exact short_notin_beginOps cfg.top_opt "proc" (by decide) (by decide) hmem
    · simp [h] at hfl
    · rw [h1] at hmem; exact absurd hmem (by decide)
    · rw [h1] at hmem
      cases hr : cfg.retime <;> rw [hr] at hmem <;> exact absurd hmem (by decide)
    · rw [h1] at hmem
      exact notin_map_lutsOps cfg.part "proc" (by decide) (by decide) (by decide) hmem
    · rw [h1] at hmem; exact absurd hmem (by decide)
    · rw [h1] at hmem; exact absurd hmem (by decide)
    · rw [h1] at hmem
      exact short_notin_jsonOps cfg.json_file "proc" (by decide) (by decide) hmem

theorem claim_c7_noflatten_witness :
    "flatten" ∉ stageSeq cfgNoFlattenFullRun ∧ "proc" ∉ allOps cfgNoFlattenFullRun :=
  claim_c7_noflatten cfgNoFlattenFullRun rfl

/-- C8: the retiming invocation "abc -dff" is issued only when the retime
flag is set and the fine stage is active, and then exactly as the last
operation of the fine stage body, immediately after "opt -fast"; the
dispatched stage order is a subsequence of the fixed stage order, so every
fine-stage operation precedes every map_luts operation. -/
theorem claim_c8_retime (cfg : Config) :
    (cfg.retime = false → "abc -dff" ∉ allOps cfg) ∧
    (∀ l ops, (l, ops) ∈ traceOf cfg → "abc -dff" ∈ ops →
      cfg.retime = true ∧ l = "fine" ∧ ops = fineOps true) ∧
    (cfg.retime = true → "fine" ∈ stageSeq cfg →
      ("fine", fineOps true) ∈ traceOf cfg) ∧
    List.count "abc -dff" (fineOps true) = 1 ∧
    fineOps true = fineOps false ++ ["abc -dff"] ∧
    (fineOps false).getLast? = some "opt -fast" ∧
    (stageSeq cfg).Sublist stageLabels := by
  have hcore : ∀ l ops, (l, ops) ∈ traceOf cfg → "abc -dff" ∈ ops →
      cfg.retime = true ∧ l = "fine" ∧ ops = fineOps true := by
    intro l ops hp hmem
    rcases mem_traceOf_cases cfg (l, ops) hp with
      h1 | ⟨hfl, h1⟩ | h1 | h1 | h1 | h1 | h1 | h1 <;>
      injection h1 with hl hops
    · rw [hops] at hmem
      exact absurd hmem
        (short_notin_beginOps cfg.top_opt "abc -dff" (by decide) (by decide))
    · rw [hops] at hmem; exact absurd hmem (by decide)
    · rw [hops] at hmem; exact absurd hmem (by decide)
    · cases hr : cfg.retime
      · rw [hr] at hops; rw [hops] at hmem; exact absurd hmem (by decide)
      · rw [hr] at hops; exact ⟨rfl, hl, hops⟩
    · rw [hops] at hmem
      exact absurd hmem
        (notin_map_lutsOps cfg.part "abc -dff" (by decide) (by decide) (by decide))
    · rw [hops] at hmem; exact absurd hmem (by decide)
    · rw [hops] at hmem; exact absurd hmem (by decide)
    · rw [hops] at hmem
      exact absurd hmem
        (short_notin_jsonOps cfg.json_file "abc -dff" (by decide) (by decide))
  refine ⟨?_, hcore, ?_, by decide, by decide, by decide, ?_⟩
  · intro hr hop
    obtain ⟨p, hp, hmem⟩ := mem_allOps_cases cfg _ hop
    obtain ⟨hrt, -, -⟩ := hcore p.1 p.2 hp hmem
    rw [hr] at hrt
    exact absurd hrt (by decide)
  · intro hr hmem
    rcases List.mem_map.mp hmem with ⟨p, hp, hfst⟩
    rcases mem_traceOf_cases cfg p hp with
      h1 | ⟨hfl, h1⟩ | h1 | h1 | h1 | h1 | h1 | h1
    · rw [h1] at hfst; simp at hfst
    · rw [h1] at hfst; simp at hfst
    · rw [h1] at hfst; simp at hfst
    · rw [h1, hr] at hp; exact hp
    · rw [h1] at hfst; simp at hfst
    · rw [h1] at hfst; simp at hfst
    · rw [h1] at hfst; simp at hfst
    · rw [h1] at hfst; simp at hfst
  · have hs := (trace_sublist_gated cfg).map Prod.fst
    rw [List.map_map] at hs
    refine hs.trans ?_
    cases hf : cfg.flatten <;>
      simp [gatedRows, stageTable, hf, List.filter_cons, stageLabels]

theorem claim_c8_retime_witness : ("fine", fineOps true) ∈ traceOf cfgRetime :=
  (claim_c8_retime cfgRetime).2.2.1 rfl (by decide)

/-- C9: an unmatched run label is not an error: with a valid part and a
fully selected design the pass always returns normally; a non-empty
run_from matching no stage label yields zero dispatched stage bodies, and
an unmatched run_to never closes the window (the full fixed stage sequence
runs when run_from is empty and flatten is enabled). -/
theorem claim_c9_unmatched_label (cfg : Config) (hsel : cfg.full_selection = true)
    (hpart : cfg.part ∈ validParts) :
    execute cfg = Except.ok (traceOf cfg) ∧
    (cfg.run_from ≠ "" → cfg.run_from ∉ stageLabels → execute cfg = Except.ok []) ∧
    (cfg.run_to ∉ stageLabels → cfg.run_from = "" → cfg.flatten = true →
      stageSeq cfg = stageLabels) := by
  have hvalid : ¬(cfg.part ≠ "SLG46140V" ∧ cfg.part ≠ "SLG46620V" ∧
      cfg.part ≠ "SLG46621V") := by
    simp only [validParts, List.mem_cons, List.not_mem_nil, or_false] at hpart
    rcases hpart with h | h | h <;> simp [h]
  have hexec : execute cfg = Except.ok (pipeline cfg).trace := by
    simp [execute, hsel, hvalid]
  refine ⟨hexec, ?_, ?_⟩
  · intro hne hnm
    have hinit : (⟨decide (cfg.run_from = ""), [], []⟩ : RunState).active = false := by
      simp [hne]
    have h := foldl_inactive cfg (stageTable cfg) ⟨decide (cfg.run_from = ""), [], []⟩
      hinit (fun r hr hg hfrom => absurd (hfrom ▸ stageTable_label_mem cfg r hr) hnm)
    have htr : (pipeline cfg).trace = [] := by simpa [pipeline] using h.2
    rw [hexec, htr]
  · intro hto hfrom hfl
    exact stageSeq_eq_all cfg hfrom hto hfl

theorem claim_c9_unmatched_label_witness : execute cfgUnmatchedFrom = Except.ok [] :=
  (claim_c9_unmatched_label cfgUnmatchedFrom rfl (by decide)).2.1 (by decide) (by decide)

/-- C10: when the flatten flag is disabled the tracker is never consulted
for the "flatten" label; consequently with run_from = "flatten" the window
never opens (zero dispatches for every run_to), and with run_to = "flatten"
the window is never closed by that label (with run_from empty, every other
stage runs). -/
theorem claim_c10_flatten_short_circuit (cfg : Config) (h : cfg.flatten = false) :
    "flatten" ∉ consultedLabels cfg ∧
    (cfg.run_from = "flatten" → traceOf cfg = []) ∧
    (cfg.run_to = "flatten" → cfg.run_from = "" →
      stageSeq cfg = ["begin", "coarse", "fine", "map_luts", "map_cells", "check", "json"]) := by
  refine ⟨?_, ?_, ?_⟩
  · have hc := foldl_consulted cfg (stageTable cfg) ⟨decide (cfg.run_from = ""), [], []⟩
    have hcl : consultedLabels cfg =
        ((stageTable cfg).filter (fun r => r.gate)).map StageRow.label := by
      simpa [consultedLabels, pipeline] using hc
    rw [hcl]
    simp [stageTable, h, List.filter_cons]
  · intro hfrom
    have hinit : (⟨decide (cfg.run_from = ""), [], []⟩ : RunState).active = false := by
      simp [hfrom]
    have hfold := foldl_inactive cfg (stageTable cfg)
      ⟨decide (cfg.run_from = ""), [], []⟩ hinit ?_
    · simpa [traceOf, pipeline] using hfold.2
    · intro r hr hg heq
      rw [hfrom] at heq
      simp only [stageTable, List.mem_cons, List.not_mem_nil, or_false] at hr
      rcases hr with rfl | rfl | rfl | rfl | rfl | rfl | rfl | rfl
      · simp at heq
      · simp [h] at hg
      · simp at heq
      · simp at heq
      · simp at heq
      · simp at heq
      · simp at heq
      · simp at heq
  · intro hto hfrom
    have hact := foldl_active cfg (stageTable cfg)
      ⟨decide (cfg.run_from = ""), [], []⟩ (by simp [hfrom]) ?_
    · have htr : (pipeline cfg).trace =
          ((stageTable cfg).filter (fun r => r.gate)).map (fun r => (r.label, r.body)) := by
        simpa [pipeline] using hact.2
      rw [stageSeq, traceOf, htr, List.map_map]
      simp [stageTable, h, List.filter_cons]
    · intro r hr hg
      rw [hto]
      simp only [stageTable, List.mem_cons, List.not_mem_nil, or_false] at hr
      rcases hr with rfl | rfl | rfl | rfl | rfl | rfl | rfl | rfl
      · simp
      · simp [h] at hg
      · simp
      · simp
      · simp
      · simp
      · simp
      · simp

theorem claim_c10_flatten_short_circuit_witness :
    "flatten" ∉ consultedLabels cfgNoFlattenFromFlatten ∧
    traceOf cfgNoFlattenFromFlatten = [] :=
  ⟨(claim_c10_flatten_short_circuit cfgNoFlattenFromFlatten rfl).1,
   (claim_c10_flatten_short_circuit cfgNoFlattenFromFlatten rfl).2.1 rfl⟩

end GreenPAK4
